import Mathlib

/-!
Verification of the EHR Navigator progressive-narrowing pipeline
(`backend/app/services/ehr_navigator.py`).

Text is modelled as `List Char` (Python strings are sequences of code
points).  Python's `str.strip()` is modelled with `Char.isWhitespace`
(covers the ordinary whitespace the module manipulates) and the regex
`\d` with ASCII digits.  External collaborators — the FHIR record store,
the `json.loads` stdlib parser and the clinical model server — are
modelled as oracle fields of an `Env` record supplied to each run; the
source's control flow around them is translated literally.
-/

namespace EhrNav

abbrev Str := List Char

/-- Python `str.find` / regex scanning primitive: `findMatch m s` returns the
first index `i` (with the matched length) at which the matcher `m` succeeds
on the suffix `s.drop i`. -/
def findMatch (m : Str → Option Nat) : Str → Option (Nat × Nat)
  | [] => (m []).map (fun L => (0, L))
  | s@(_ :: t) =>
    match m s with
    | some L => some (0, L)
    | none => (findMatch m t).map (fun p => (p.1 + 1, p.2))

/-- Matcher for a fixed literal pattern `p` (succeeds iff `p` is a prefix). -/
def fixedMatcher (p : Str) (s : Str) : Option Nat :=
  if p.isPrefixOf s then some p.length else none

/-- Python `text.find(p)`: index of the first occurrence of `p`, `none` for -1. -/
def pyFind (p s : Str) : Option Nat :=
  (findMatch (fixedMatcher p) s).map Prod.fst

/-- Matcher for the regex `<unused\d*>`: the literal `<unused`, a maximal run
of digits, then `>` (greedy `\d*` can only succeed on the full digit run). -/
def matchUnused (s : Str) : Option Nat :=
  if "<unused".data.isPrefixOf s then
    let rest := s.drop 7
    let digs := rest.takeWhile Char.isDigit
    match rest.drop digs.length with
    | '>' :: _ => some (7 + digs.length + 1)
    | _ => none
  else none

/-- Model of `re.sub(open .*? close, "", s)` for the two thinking-block regexes: a
match is the leftmost open-marker occurrence paired with the earliest
close-marker occurrence after it (non-greedy body); matched spans are removed
and scanning resumes after the removed span.  If the leftmost open marker has
no close marker after it, no later start can match either (for both regexes
used in the source every close-marker occurrence after a later open is also
one after the first open), so the text is returned unchanged.  `fuel` bounds
the recursion; every removal consumes at least two characters of the suffix,
so `fuel = s.length` never runs out before the matcher fails. -/
def reSubDel (openM closeM : Str → Option Nat) : Nat → Str → Str
  | 0, s => s
  | fuel + 1, s =>
    match findMatch openM s with
    | none => s
    | some (i, L1) =>
      match findMatch closeM (s.drop (i + L1)) with
      | none => s
      | some (j, L2) =>
        s.take i ++ reSubDel openM closeM fuel (s.drop (i + L1 + j + L2))

/-- Python `str.strip()`: drop leading and trailing whitespace. -/
def stripChars (s : Str) : Str :=
  ((s.dropWhile Char.isWhitespace).reverse.dropWhile Char.isWhitespace).reverse

/-- The fixed list of section-start markers searched by the
`thought\n`-prefix branch of `_strip_thinking`, in source order. -/
def MARKERS : List Str :=
  ["\n## ".data, "\n# ".data, "\n**".data, "\nBased on".data,
   "\nThe patient".data, "\nHere is".data, "\nClinical".data, "\n---".data]

/-- The marker loop of `_strip_thinking`: try each marker in list order,
taking the first one found at a position strictly greater than 0. -/
def findMarkerLoop : List Str → Str → Option Nat
  | [], _ => none
  | m :: ms, t =>
    match pyFind m t with
    | some pos => if pos > 0 then some pos else findMarkerLoop ms t
    | none => findMarkerLoop ms t

/-- The `thought\n` branch of `_strip_thinking`: cut at the first marker the
loop accepts, else drop the first blank-line-delimited paragraph
(`text.split("\n\n", 1)`), else leave the text unchanged. -/
def thoughtBranch (t : Str) : Str :=
  match findMarkerLoop MARKERS t with
  | some pos => stripChars (t.drop pos)
  | none =>
    match pyFind "\n\n".data t with
    | some i => t.drop (i + 2)
    | none => t

/-- First statement of `_strip_thinking`:
`re.sub(r"<think>[\s\S]*?</think>", "", text).strip()`. -/
def stepThink (s : Str) : Str :=
  stripChars (reSubDel (fixedMatcher "<think>".data)
    (fixedMatcher "</think>".data) s.length s)

/-- Second statement of `_strip_thinking`:
`re.sub(r"<unused\d*>.*?<unused\d*>", "", text, flags=re.DOTALL).strip()`. -/
def stepUnused (s : Str) : Str :=
  stripChars (reSubDel matchUnused matchUnused s.length s)

/-- Third statement of `_strip_thinking`: drop everything up to and including
the first `model_output\n` occurrence, when present. -/
def stepModelOutput (s : Str) : Str :=
  match pyFind "model_output\n".data s with
  | some idx => s.drop (idx + 13)
  | none => s

/-- Fourth statement of `_strip_thinking`: the `thought\n` / `thought\r\n`
prefix branch. -/
def stepThought (s : Str) : Str :=
  if "thought\n".data.isPrefixOf s || "thought\r\n".data.isPrefixOf s then
    thoughtBranch s
  else s

/-- Full `_strip_thinking`: strip MedGemma thinking traces (four formats, applied
in source order: `<think>…</think>` blocks, `<unused\d*>…<unused\d*>` blocks,
a `model_output\n` prefix, and a leading `thought\n` paragraph), with a
final `strip()`. -/
def _strip_thinking (x : Str) : Str :=
  stripChars (stepThought (stepModelOutput (stepUnused (stepThink x))))

/-- Function `_strip_json_decoration`: strip markdown code fences (a
```json or ``` opening fence) when both the opening and closing fence are
present. -/
def _strip_json_decoration (text : Str) : Str :=
  let cleaned := stripChars text
  if "```json".data.isPrefixOf cleaned && "```".data.isSuffixOf cleaned then
    stripChars ((cleaned.drop 7).take (cleaned.length - 10))
  else if "```".data.isPrefixOf cleaned && "```".data.isSuffixOf cleaned then
    stripChars ((cleaned.drop 3).take (cleaned.length - 6))
  else cleaned

/-- String-level wrapper for `_strip_thinking`. -/
def stripThinkingS (s : String) : String := String.mk (_strip_thinking s.data)

/-- String-level wrapper for `_strip_json_decoration`. -/
def stripJsonDecorationS (s : String) : String :=
  String.mk (_strip_json_decoration s.data)

/-- Python values produced by `json.loads`, at the granularity the
`identify_relevant_types` code path distinguishes: strings (comparable with
the manifest's string keys), lists, dicts (unhashable, like lists), and the
remaining primitives (numbers, booleans, `None`: hashable but never equal to
a string key). -/
inductive PyJson where
  | str (s : String)
  | arr (elems : List PyJson)
  | obj
  | prim

/-- One step of the comprehension `[t for t in types if t in manifest]`: a
string element is kept iff it is a manifest key, numbers/booleans/`None` are
hashable and dropped, and a list or dict element makes `t in manifest` raise
`TypeError` (unhashable key), modelled as `Except.error`. -/
def pyElemKeep (keys : List String) : PyJson → Except Unit (Option String)
  | PyJson.str t => Except.ok (if keys.contains t then some t else none)
  | PyJson.prim => Except.ok none
  | PyJson.arr _ => Except.error ()
  | PyJson.obj => Except.error ()

/-- The comprehension `[t for t in types if t in manifest]`, evaluated left
to right, raising (returning `Except.error`) at the first unhashable
element. -/
def pyFilterKeys (keys : List String) : List PyJson → Except Unit (List String)
  | [] => Except.ok []
  | e :: es =>
    match pyElemKeep keys e with
    | Except.error _ => Except.error ()
    | Except.ok o =>
      (pyFilterKeys keys es).map (fun r =>
        match o with
        | some t => t :: r
        | none => r)

/-- A patient's FHIR manifest: resource type → brief record summaries
(Python `dict[str, list[str]]`, insertion ordered). -/
abbrev Manifest := List (String × List String)

/-- The LangGraph `AgentState` threaded through the pipeline. -/
structure AgentState where
  question : String
  patient_id : String
  manifest : Manifest
  relevant_types : List String
  facts : List String
  resources_consulted : List String
  reasoning : String
  answer : String
deriving DecidableEq, Repr

/-- A partial state update returned by one node (only the keys present in
the Python dict the node returns are `some`). -/
structure Update where
  manifest : Option Manifest := none
  relevant_types : Option (List String) := none
  facts : Option (List String) := none
  resources_consulted : Option (List String) := none
  reasoning : Option String := none
  answer : Option String := none
deriving DecidableEq, Repr

/-- The orchestrator's merge of a partial update into the running state:
`facts` is annotated with `operator.add` (and the streaming loop uses
`final_state["facts"].extend(v)`), so it is concatenated; every other field
present in the update overwrites the running value. -/
def mergeUpdate (s : AgentState) (u : Update) : AgentState :=
  { question := s.question
    patient_id := s.patient_id
    manifest := u.manifest.getD s.manifest
    relevant_types := u.relevant_types.getD s.relevant_types
    facts := s.facts ++ u.facts.getD []
    resources_consulted := u.resources_consulted.getD s.resources_consulted
    reasoning := u.reasoning.getD s.reasoning
    answer := u.answer.getD s.answer }

/-- Oracle record for one pipeline invocation: the results of the external
collaborators (FHIR record store, `json.loads`, clinical model server).
`none` in a model-response field means the call raised; `none` in `fetch`
means the per-type FHIR query raised.  Fetched records are represented by
their full-detail summary text (`_summarize_resource_full` output), which is
the only view of them the pipeline uses. -/
structure Env where
  manifest : Manifest
  identifyResp : Option String
  jsonLoads : String → Option PyJson
  fetch : String → Option (List String)
  extractResp : String → Option String
  synthResp : Option String

/-- Step 1 `discover_manifest`: publish the manifest; when it is empty, also
set the terminal answer and empty facts / consulted lists. -/
def discover_manifest (env : Env) (_s : AgentState) : Update :=
  if env.manifest.isEmpty then
    { manifest := some []
      answer := some "No clinical data found for this patient in the EHR."
      facts := some []
      resources_consulted := some [] }
  else
    { manifest := some env.manifest }

/-- The sanitized, fence-stripped text handed to `json.loads` in Step 2. -/
def cleanIdentify (resp : String) : String :=
  stripJsonDecorationS (stripThinkingS resp)

/-- Step 2 `identify_relevant_types`: parse the model's JSON list and filter
it to manifest keys; on model failure, JSON decode failure, a non-list
result, or a `TypeError` escaping the comprehension, fall back to every
manifest key. -/
def identify_relevant_types (env : Env) (s : AgentState) : Update :=
  if s.manifest.isEmpty then { relevant_types := some [] }
  else
    let keys := s.manifest.map Prod.fst
    match env.identifyResp with
    | none => { relevant_types := some keys }
    | some content =>
      match env.jsonLoads (cleanIdentify content) with
      | some (PyJson.arr elems) =>
        match pyFilterKeys keys elems with
        | Except.ok relevant => { relevant_types := some relevant }
        | Except.error _ => { relevant_types := some keys }
      | _ => { relevant_types := some keys }

/-- Loop body of Step 3+4 for one resource type: fetch (a raised fetch skips
the type), record the consulted label, then extract facts via the model,
falling back to the raw concatenated detail text when the model call raises;
an extraction that sanitizes to the empty string appends nothing. -/
def typeStep (env : Env) (acc : List String × List String) (rtype : String) :
    List String × List String :=
  match env.fetch rtype with
  | none => acc
  | some resources =>
    if resources.isEmpty then acc
    else
      let consulted := acc.2 ++ [rtype ++ " (" ++ toString resources.length ++ ")"]
      let resource_text := String.intercalate "\n" resources
      match env.extractResp rtype with
      | some resp =>
        let facts := stripThinkingS resp
        if facts.isEmpty then (acc.1, consulted)
        else (acc.1 ++ ["--- " ++ rtype ++ " ---\n" ++ facts], consulted)
      | none =>
        (acc.1 ++ ["--- " ++ rtype ++ " ---\n" ++ resource_text], consulted)

/-- Step 3+4 `execute_and_extract`: iterate `typeStep` over the relevant
types (empty selection returns empty facts/consulted immediately). -/
def execute_and_extract (env : Env) (s : AgentState) : Update :=
  if s.relevant_types.isEmpty then
    { facts := some [], resources_consulted := some [] }
  else
    let r := s.relevant_types.foldl (typeStep env) ([], [])
    { facts := some r.1, resources_consulted := some r.2 }

/-- Step 5 `synthesize_answer`: empty facts give the terminal "no relevant
data" answer with empty reasoning; otherwise reasoning is the joined facts
and the answer is the sanitized model output, or, when the model call
raises, the joined facts under the `**Extracted Facts:**` heading with empty
reasoning. -/
def synthesize_answer (env : Env) (s : AgentState) : Update :=
  if s.facts.isEmpty then
    { answer := some "No relevant clinical data found to answer this question."
      reasoning := some "" }
  else
    let joined_facts := String.intercalate "\n\n" s.facts
    match env.synthResp with
    | some resp =>
      { answer := some (stripThinkingS resp), reasoning := some joined_facts }
    | none =>
      { answer := some ("**Extracted Facts:**\n\n" ++ joined_facts)
        reasoning := some "" }

/-- The initial state built by `navigate_ehr` / `navigate_ehr_stream`. -/
def initialState (question patient_id : String) : AgentState :=
  { question := question
    patient_id := patient_id
    manifest := []
    relevant_types := []
    facts := []
    resources_consulted := []
    reasoning := ""
    answer := "" }

/-- The sequence of `(node_name, partial_update)` pairs the compiled graph
executes: `discover_manifest`, then — unless `_should_continue_after_discover`
routes to `END` because the merged manifest is empty — `identify_relevant_types`,
`execute_and_extract` and `synthesize_answer`, each node seeing the state
with all earlier updates merged in. -/
def pipelineNodes (env : Env) (s0 : AgentState) : List (String × Update) :=
  let u1 := discover_manifest env s0
  let s1 := mergeUpdate s0 u1
  if s1.manifest.isEmpty then
    [("discover_manifest", u1)]
  else
    let u2 := identify_relevant_types env s1
    let s2 := mergeUpdate s1 u2
    let u3 := execute_and_extract env s2
    let s3 := mergeUpdate s2 u3
    let u4 := synthesize_answer env s3
    [("discover_manifest", u1), ("identify_relevant_types", u2),
     ("execute_and_extract", u3), ("synthesize_answer", u4)]

/-- The final state of one invocation: every executed node's update merged,
in order, into the initial state (what both `navigate_ehr` and the streaming
loop's `final_state` compute). -/
def finalState (env : Env) (q pid : String) : AgentState :=
  (pipelineNodes env (initialState q pid)).foldl
    (fun s nu => mergeUpdate s nu.2) (initialState q pid)

/-- The running states of one invocation: the initial state followed by the
state after each node's update is merged. -/
def mergeStates (s : AgentState) : List (String × Update) → List AgentState
  | [] => [s]
  | nu :: rest => s :: mergeStates (mergeUpdate s nu.2) rest

/-- All intermediate states of one invocation. -/
def runStates (env : Env) (q pid : String) : List AgentState :=
  mergeStates (initialState q pid) (pipelineNodes env (initialState q pid))

/-- Payload of the final streaming event. -/
structure DoneData where
  answer : String
  reasoning : String
  resources_consulted : List String
  facts_extracted : Nat
  processing_time_ms : Nat
deriving DecidableEq, Repr

/-- One line of the streaming output: a per-node progress object
`{step, label, reasoning}` or the terminal `{step: "done", data: …}` object
(each line is `json.dumps` of such an object, hence JSON-parseable by
construction). -/
inductive Event where
  | progress (step : String) (label : String) (reasoning : String)
  | done (data : DoneData)
deriving DecidableEq, Repr

/-- The `step` field of a streaming line. -/
def Event.step : Event → String
  | Event.progress s _ _ => s
  | Event.done _ => "done"

/-- The `step_names` table of `navigate_ehr_stream` (default: the node name). -/
def stepLabel (n : String) : String :=
  if n = "discover_manifest" then "Discovering patient records..."
  else if n = "identify_relevant_types" then "Identifying relevant data..."
  else if n = "execute_and_extract" then "Extracting clinical facts..."
  else if n = "synthesize_answer" then "Synthesizing answer..."
  else n

/-- The per-node `reasoning_text` of a progress event, computed from the
node's partial update and (for `execute_and_extract`) the merged state. -/
def progressText (node : String) (u : Update) (merged : AgentState) : String :=
  if node = "discover_manifest" then
    let m := u.manifest.getD []
    if m.isEmpty then "No data found"
    else
      "Found: " ++ String.intercalate ", "
        (m.map (fun kv => kv.1 ++ " (" ++ toString kv.2.length ++ ")"))
  else if node = "identify_relevant_types" then
    let ts := u.relevant_types.getD []
    if ts.isEmpty then "No types selected"
    else "Selected: " ++ String.intercalate ", " ts
  else if node = "execute_and_extract" then
    if merged.facts.isEmpty then "No facts extracted"
    else String.intercalate "\n" merged.facts
  else if node = "synthesize_answer" then "Complete"
  else ""

/-- The progress events emitted for a node sequence, threading the merged
state exactly as `navigate_ehr_stream` maintains `final_state`. -/
def progressEvents (s : AgentState) : List (String × Update) → List Event
  | [] => []
  | (n, u) :: rest =>
    let s' := mergeUpdate s u
    Event.progress n (stepLabel n) (progressText n u s') :: progressEvents s' rest

/-- The full event sequence of `navigate_ehr_stream`: one progress event per
executed node, then exactly one `done` event with the final result payload
(`elapsed` is the measured wall-clock duration, an input here). -/
def streamEvents (env : Env) (q pid : String) (elapsed : Nat) : List Event :=
  let s0 := initialState q pid
  let fin := finalState env q pid
  progressEvents s0 (pipelineNodes env s0) ++
    [Event.done
      { answer := fin.answer
        reasoning := fin.reasoning
        resources_consulted := fin.resources_consulted
        facts_extracted := fin.facts.length
        processing_time_ms := elapsed }]

/-- The facts block `execute_and_extract` appends for one resource type
(`none` when the fetch raises, returns no records, or the sanitized
extraction is empty). -/
def typeBlock (env : Env) (rtype : String) : Option String :=
  match env.fetch rtype with
  | none => none
  | some resources =>
    if resources.isEmpty then none
    else
      match env.extractResp rtype with
      | some resp =>
        let facts := stripThinkingS resp
        if facts.isEmpty then none
        else some ("--- " ++ rtype ++ " ---\n" ++ facts)
      | none =>
        some ("--- " ++ rtype ++ " ---\n" ++ String.intercalate "\n" resources)

/-- The `resources_consulted` label `execute_and_extract` appends for one
resource type (`none` when the fetch raises or returns no records). -/
def typeConsulted (env : Env) (rtype : String) : Option String :=
  match env.fetch rtype with
  | none => none
  | some resources =>
    if resources.isEmpty then none
    else some (rtype ++ " (" ++ toString resources.length ++ ")")

/-! ### Lemmas about the matching primitives -/

theorem isPrefixOf_iff_exists (p l : Str) :
    p.isPrefixOf l = true ↔ ∃ t, p ++ t = l := by
  rw [ List.isPrefixOf_iff_prefix]
  exact Iff.rfl

theorem findMatch_eq_none_iff (m : Str → Option Nat) (s : Str) :
    findMatch m s = none ↔ ∀ i, m (s.drop i) = none := by
  induction s with
  | nil =>
    simp only [findMatch, Option.map_eq_none', List.drop_nil]
    exact ⟨fun h _ => h, fun h => h 0⟩
  | cons a t ih =>
    constructor
    · intro h i
      cases hm : m (a :: t) with
      | some L => simp [findMatch, hm] at h
      | none =>
        cases i with
        | zero => simpa using hm
        | succ j =>
          simp only [findMatch, hm, Option.map_eq_none'] at h
          exact (ih.mp h) j
    · intro h
      have h0 := h 0
      simp only [List.drop] at h0
      simp only [findMatch, h0, Option.map_eq_none']
      exact ih.mpr (fun i => h (i + 1))

theorem pyFind_eq_none_iff (p s : Str) :
    pyFind p s = none ↔ ∀ i, p.isPrefixOf (s.drop i) = false := by
  rw [pyFind, Option.map_eq_none', findMatch_eq_none_iff]
  constructor
  · intro h i
    have hi := h i
    cases hb : p.isPrefixOf (s.drop i) with
    | false => rfl
    | true => simp [fixedMatcher, hb] at hi
  · intro h i
    simp [fixedMatcher, h i]

theorem pyFind_eq_some_zero (p s : Str) :
    pyFind p s = some 0 → p.isPrefixOf s = true := by
  intro h
  cases s with
  | nil =>
    by_cases hpre : p.isPrefixOf ([] : Str)
    · exact hpre
    · simp [pyFind, findMatch, fixedMatcher, hpre] at h
  | cons a t =>
    by_cases hpre : p.isPrefixOf (a :: t)
    · exact hpre
    · simp only [pyFind, findMatch, fixedMatcher, hpre, if_false] at h
      cases hf : findMatch (fixedMatcher p) t with
      | none => simp [hf] at h
      | some q => simp [hf] at h

theorem reSubDel_of_no_open (openM closeM : Str → Option Nat) (s : Str)
    (h : findMatch openM s = none) :
    ∀ fuel, reSubDel openM closeM fuel s = s := by
  intro fuel
  cases fuel with
  | zero => rfl
  | succ n => simp [reSubDel, h]

theorem matchUnused_none_of_no_open (s : Str)
    (h : "<unused".data.isPrefixOf s = false) : matchUnused s = none := by
  simp [matchUnused, h]

theorem findMatch_matchUnused_none (s : Str)
    (h : pyFind "<unused".data s = none) : findMatch matchUnused s = none := by
  rw [findMatch_eq_none_iff]
  intro i
  exact matchUnused_none_of_no_open _ ((pyFind_eq_none_iff _ _).mp h i)

theorem pyFind_none_of_append (p u s' v : Str)
    (h : pyFind p (u ++ s' ++ v) = none) :
    pyFind p s' = none := by
  rw [pyFind_eq_none_iff] at h ⊢
  intro i
  cases hpre : p.isPrefixOf (s'.drop i) with
  | false => rfl
  | true =>
    exfalso
    obtain ⟨t, ht⟩ := (isPrefixOf_iff_exists p (s'.drop i)).mp hpre
    have hsplit : u ++ s' ++ v = (u ++ s'.take i) ++ (p ++ (t ++ v)) := by
      have : s'.take i ++ s'.drop i = s' := List.take_append_drop i s'
      calc u ++ s' ++ v = u ++ (s'.take i ++ s'.drop i) ++ v := by rw [this]
        _ = (u ++ s'.take i) ++ (p ++ (t ++ v)) := by
            rw [← ht]; simp [List.append_assoc]
    have hdrop : (u ++ s' ++ v).drop (u ++ s'.take i).length = p ++ (t ++ v) := by
      rw [hsplit]; exact List.drop_left _ _
    have := h (u ++ s'.take i).length
    rw [hdrop] at this
    have : p.isPrefixOf (p ++ (t ++ v)) = true :=
      (isPrefixOf_iff_exists _ _).mpr ⟨t ++ v, rfl⟩
    simp_all

/-! ### Lemmas about `stripChars` -/

theorem dropWhile_head_false {p : Char → Bool} (l : List Char) {a : Char}
    {t : List Char} (h : l.dropWhile p = a :: t) : p a = false := by
  induction l with
  | nil => simp at h
  | cons b l' ih =>
    by_cases hb : p b
    · rw [List.dropWhile_cons_of_pos hb] at h
      exact ih h
    · rw [List.dropWhile_cons_of_neg hb] at h
      injection h with h1 h2
      rw [← h1]
      simpa using hb

theorem dropWhile_idem (p : Char → Bool) (l : List Char) :
    (l.dropWhile p).dropWhile p = l.dropWhile p := by
  cases h : l.dropWhile p with
  | nil => rfl
  | cons a t =>
    have ha := dropWhile_head_false l h
    rw [List.dropWhile_cons_of_neg (by simp [ha])]

theorem stripChars_infix (s : Str) : ∃ u v, u ++ stripChars s ++ v = s := by
  refine ⟨s.takeWhile Char.isWhitespace,
    ((s.dropWhile Char.isWhitespace).reverse.takeWhile Char.isWhitespace).reverse, ?_⟩
  unfold stripChars
  set d := s.dropWhile Char.isWhitespace with hd
  have h1 : s.takeWhile Char.isWhitespace ++ d = s :=
    List.takeWhile_append_dropWhile Char.isWhitespace s
  have h2 : d.reverse.takeWhile Char.isWhitespace ++ d.reverse.dropWhile Char.isWhitespace
      = d.reverse := List.takeWhile_append_dropWhile Char.isWhitespace d.reverse
  have h3 : (d.reverse.dropWhile Char.isWhitespace).reverse ++
      (d.reverse.takeWhile Char.isWhitespace).reverse = d := by
    rw [← List.reverse_append, h2, List.reverse_reverse]
  calc s.takeWhile Char.isWhitespace ++
        (d.reverse.dropWhile Char.isWhitespace).reverse ++
        (d.reverse.takeWhile Char.isWhitespace).reverse
      = s.takeWhile Char.isWhitespace ++
        ((d.reverse.dropWhile Char.isWhitespace).reverse ++
         (d.reverse.takeWhile Char.isWhitespace).reverse) := by
        rw [List.append_assoc]
    _ = s.takeWhile Char.isWhitespace ++ d := by rw [h3]
    _ = s := h1

theorem stripChars_eq_prefix_of_ltrim (s : Str) :
    ∃ w, stripChars s ++ w = s.dropWhile Char.isWhitespace := by
  refine ⟨((s.dropWhile Char.isWhitespace).reverse.takeWhile Char.isWhitespace).reverse, ?_⟩
  unfold stripChars
  rw [← List.reverse_append, List.takeWhile_append_dropWhile, List.reverse_reverse]

theorem stripChars_idem (s : Str) : stripChars (stripChars s) = stripChars s := by
  have hrev : (stripChars s).reverse
      = (s.dropWhile Char.isWhitespace).reverse.dropWhile Char.isWhitespace := by
    unfold stripChars
    rw [List.reverse_reverse]
  have hB : (stripChars s).reverse.dropWhile Char.isWhitespace = (stripChars s).reverse := by
    rw [hrev, dropWhile_idem]
  have hA : (stripChars s).dropWhile Char.isWhitespace = stripChars s := by
    cases hrc : stripChars s with
    | nil => rfl
    | cons a t =>
      obtain ⟨w, hw⟩ := stripChars_eq_prefix_of_ltrim s
      rw [hrc] at hw
      have hda : s.dropWhile Char.isWhitespace = a :: (t ++ w) := by
        rw [← hw]; rfl
      have hws : Char.isWhitespace a = false :=
        dropWhile_head_false _ ((dropWhile_idem _ _).trans hda)
      rw [List.dropWhile_cons_of_neg (by simp [hws])]
  show (((stripChars s).dropWhile Char.isWhitespace).reverse.dropWhile
      Char.isWhitespace).reverse = stripChars s
  rw [hA, hB, List.reverse_reverse]

/-! ### Marker-free inputs pass through `_strip_thinking` untouched except
for the final whitespace trim -/

theorem pyFind_none_stripChars (p s : Str) (h : pyFind p s = none) :
    pyFind p (stripChars s) = none := by
  obtain ⟨u, v, huv⟩ := stripChars_infix s
  exact pyFind_none_of_append p u (stripChars s) v (by rw [huv]; exact h)

theorem findMatch_fixed_none_of_pyFind_none (p s : Str)
    (h : pyFind p s = none) : findMatch (fixedMatcher p) s = none := by
  rw [pyFind, Option.map_eq_none'] at h
  exact h

theorem not_startsWith_of_pyFind_none (p s : Str) (h : pyFind p s = none) :
    p.isPrefixOf s = false := by
  have h0 := (pyFind_eq_none_iff p s).mp h 0
  simpa using h0

theorem stepThink_no_op (s : Str) (h : pyFind "<think>".data s = none) :
    stepThink s = stripChars s := by
  unfold stepThink
  rw [reSubDel_of_no_open _ _ _ (findMatch_fixed_none_of_pyFind_none _ _ h)]

theorem stepUnused_no_op (s : Str) (h : pyFind "<unused".data s = none) :
    stepUnused s = stripChars s := by
  unfold stepUnused
  rw [reSubDel_of_no_open _ _ _ (findMatch_matchUnused_none _ h)]

theorem stepModelOutput_no_op (s : Str)
    (h : pyFind "model_output\n".data s = none) : stepModelOutput s = s := by
  simp [stepModelOutput, h]

theorem stepThought_no_op (s : Str)
    (h4 : pyFind "thought\n".data s = none)
    (h5 : pyFind "thought\r\n".data s = none) : stepThought s = s := by
  simp [stepThought, not_startsWith_of_pyFind_none _ _ h4,
    not_startsWith_of_pyFind_none _ _ h5]

theorem strip_thinking_eq_stripChars (x : Str)
    (h1 : pyFind "<think>".data x = none)
    (h2 : pyFind "<unused".data x = none)
    (h3 : pyFind "model_output\n".data x = none)
    (h4 : pyFind "thought\n".data x = none)
    (h5 : pyFind "thought\r\n".data x = none) :
    _strip_thinking x = stripChars x := by
  unfold _strip_thinking
  rw [stepThink_no_op x h1,
    stepUnused_no_op _ (pyFind_none_stripChars _ _ h2), stripChars_idem,
    stepModelOutput_no_op _ (pyFind_none_stripChars _ _ h3),
    stepThought_no_op _ (pyFind_none_stripChars _ _ h4)
      (pyFind_none_stripChars _ _ h5),
    stripChars_idem]

/-! ### Lemmas about the Retrieve-and-Extract loop -/

theorem typeStep_eq (env : Env) (acc : List String × List String) (t : String) :
    typeStep env acc t =
      (acc.1 ++ (typeBlock env t).toList, acc.2 ++ (typeConsulted env t).toList) := by
  unfold typeStep typeBlock typeConsulted
  cases env.fetch t with
  | none => simp
  | some rs =>
    by_cases hrs : rs.isEmpty
    · simp [hrs]
    · cases env.extractResp t with
      | none => simp [hrs]
      | some resp =>
        by_cases hf : (stripThinkingS resp).isEmpty
        · simp [hrs, hf]
        · simp [hrs, hf]

theorem foldl_typeStep (env : Env) :
    ∀ (l : List String) (a b : List String),
      l.foldl (typeStep env) (a, b)
        = (a ++ l.filterMap (typeBlock env), b ++ l.filterMap (typeConsulted env)) := by
  intro l
  induction l with
  | nil => intro a b; simp
  | cons t l' ih =>
    intro a b
    rw [List.foldl_cons, typeStep_eq, ih]
    cases hb : typeBlock env t <;> cases hc : typeConsulted env t <;>
      simp [List.filterMap_cons, hb, hc]

/-! ### Lemmas about the identify comprehension -/

theorem pyFilterKeys_all_hashable (keys : List String) :
    ∀ es : List PyJson,
      (∀ e ∈ es, (∃ t, e = PyJson.str t) ∨ e = PyJson.prim) →
      pyFilterKeys keys es = Except.ok (es.filterMap (fun e =>
        match e with
        | PyJson.str t => if keys.contains t then some t else none
        | _ => none)) := by
  intro es
  induction es with
  | nil => intro _; rfl
  | cons e es' ih =>
    intro h
    have he := h e (List.mem_cons_self e es')
    have hrest := ih (fun x hx => h x (List.mem_cons_of_mem e hx))
    rcases he with ⟨t, rfl⟩ | rfl
    · by_cases hk : t ∈ keys
      · simp [pyFilterKeys, pyElemKeep, hk, hrest, List.filterMap_cons, Except.map]
      · simp [pyFilterKeys, pyElemKeep, hk, hrest, List.filterMap_cons, Except.map]
    · simp [pyFilterKeys, pyElemKeep, hrest, List.filterMap_cons, Except.map]

theorem pyFilterKeys_error_of_unhashable (keys : List String) :
    ∀ es : List PyJson,
      (∃ e ∈ es, (∃ l, e = PyJson.arr l) ∨ e = PyJson.obj) →
      pyFilterKeys keys es = Except.error () := by
  intro es
  induction es with
  | nil => intro h; simp at h
  | cons e es' ih =>
    intro hex
    obtain ⟨x, hx, hform⟩ := hex
    rcases List.mem_cons.mp hx with rfl | hx'
    · rcases hform with ⟨l, rfl⟩ | rfl <;> rfl
    · have herr := ih ⟨x, hx', hform⟩
      cases hk : pyElemKeep keys e <;> simp [pyFilterKeys, hk, herr, Except.map]

/-! ### Lemmas about the streaming adapter and the state merge -/

theorem progressEvents_steps (l : List (String × Update)) :
    ∀ s, (progressEvents s l).map Event.step = l.map Prod.fst := by
  induction l with
  | nil => intro s; rfl
  | cons nu rest ih => intro s; simp [progressEvents, Event.step, ih]

theorem progressEvents_length (l : List (String × Update)) :
    ∀ s, (progressEvents s l).length = l.length := by
  induction l with
  | nil => intro s; rfl
  | cons nu rest ih => intro s; simp [progressEvents, ih]

theorem mergeStates_head (s : AgentState) (l : List (String × Update)) :
    (mergeStates s l).head? = some s := by
  cases l <;> rfl

theorem chain'_mergeStates {R : AgentState → AgentState → Prop}
    (hR : ∀ s u, R s (mergeUpdate s u)) :
    ∀ (l : List (String × Update)) (s : AgentState),
      List.Chain' R (mergeStates s l) := by
  intro l
  induction l with
  | nil => intro s; exact List.chain'_singleton s
  | cons nu rest ih =>
    intro s
    have hch := ih (mergeUpdate s nu.2)
    have hshape : mergeStates s (nu :: rest)
        = s :: mergeStates (mergeUpdate s nu.2) rest := rfl
    rw [hshape, List.chain'_cons']
    refine ⟨fun b hb => ?_, hch⟩
    rw [mergeStates_head] at hb
    have hb' : b = mergeUpdate s nu.2 := by
      simpa using hb.symm
    rw [hb']
    exact hR s nu.2

theorem findMarkerLoop_none :
    ∀ (ms : List Str) (t : Str), (∀ m ∈ ms, pyFind m t = none) →
      findMarkerLoop ms t = none := by
  intro ms
  induction ms with
  | nil => intro t _; rfl
  | cons m ms' ih =>
    intro t h
    have hm := h m (List.mem_cons_self m ms')
    simp only [findMarkerLoop, hm]
    exact ih t (fun x hx => h x (List.mem_cons_of_mem m hx))

theorem findMarkerLoop_append_found (ms1 ms2 : List Str) (m : Str) (t : Str)
    (p : Nat) (hnone : ∀ m' ∈ ms1, pyFind m' t = none)
    (hp : pyFind m t = some p) (hgt : 0 < p) :
    findMarkerLoop (ms1 ++ m :: ms2) t = some p := by
  induction ms1 with
  | nil => simp [findMarkerLoop, hp, hgt]
  | cons m' rest ih =>
    have h1 : pyFind m' t = none := hnone m' (List.mem_cons_self m' rest)
    simp only [List.cons_append, findMarkerLoop, h1]
    exact ih (fun x hx => hnone x (List.mem_cons_of_mem m' hx))

/-! ## Claims -/

/-- C6: sanitization removes exactly the deliberation span of each marker
format and leaves the remainder intact: `<think>X</think>Y` sanitizes to
`Y`, `thought\nX\n\n## Plan\nY` sanitizes to `## Plan\nY`, and a block
whose close marker is missing is left as-is rather than stripped (shown for
both paired-marker vocabularies). -/
theorem C6_sanitize_round_trip :
    _strip_thinking "<think>X</think>Y".data = "Y".data ∧
    _strip_thinking "thought\nX\n\n## Plan\nY".data = "## Plan\nY".data ∧
    _strip_thinking "<think>X Y".data = "<think>X Y".data ∧
    _strip_thinking "<unused94>X<unused95>Y".data = "Y".data ∧
    _strip_thinking "<unused94>X Y".data = "<unused94>X Y".data :=
  ⟨by decide, by decide, by decide, by decide, by decide⟩

/-- C5 counterexample: `_strip_thinking` is not idempotent.  On
`model_output\nmodel_output\nA` one pass strips only the first
`model_output\n` prefix, so a second pass strips again and produces a
different string. -/
theorem C5_cex_not_idempotent :
    _strip_thinking "model_output\nmodel_output\nA".data = "model_output\nA".data ∧
    _strip_thinking (_strip_thinking "model_output\nmodel_output\nA".data)
      ≠ _strip_thinking "model_output\nmodel_output\nA".data :=
  ⟨by decide, by decide⟩

/-- C5 (amended): on every input containing none of the thinking-marker
tokens (`<think>`, `<unused`, `model_output\n`, `thought\n`, `thought\r\n`),
`_strip_thinking` returns the input with surrounding whitespace trimmed, and
is idempotent there; it never fails (it is a total function).  On inputs
where one pass re-forms a marker occurrence it is not idempotent (see the
counterexample). -/
theorem C5_amended_idempotent_on_marker_free (x : Str)
    (h1 : pyFind "<think>".data x = none)
    (h2 : pyFind "<unused".data x = none)
    (h3 : pyFind "model_output\n".data x = none)
    (h4 : pyFind "thought\n".data x = none)
    (h5 : pyFind "thought\r\n".data x = none) :
    _strip_thinking x = stripChars x ∧
    _strip_thinking (_strip_thinking x) = _strip_thinking x := by
  have hmain := strip_thinking_eq_stripChars x h1 h2 h3 h4 h5
  refine ⟨hmain, ?_⟩
  rw [hmain, strip_thinking_eq_stripChars (stripChars x)
    (pyFind_none_stripChars _ _ h1) (pyFind_none_stripChars _ _ h2)
    (pyFind_none_stripChars _ _ h3) (pyFind_none_stripChars _ _ h4)
    (pyFind_none_stripChars _ _ h5)]
  exact stripChars_idem x

/-- C5 witness: the amended theorem applied to the concrete marker-free
input `"  Hello world "`. -/
theorem C5_amended_witness :
    pyFind "<think>".data "  Hello world ".data = none ∧
    _strip_thinking "  Hello world ".data = stripChars "  Hello world ".data ∧
    _strip_thinking (_strip_thinking "  Hello world ".data)
      = _strip_thinking "  Hello world ".data :=
  ⟨by decide,
   (C5_amended_idempotent_on_marker_free "  Hello world ".data
     (by decide) (by decide) (by decide) (by decide) (by decide)).1,
   (C5_amended_idempotent_on_marker_free "  Hello world ".data
     (by decide) (by decide) (by decide) (by decide) (by decide)).2⟩

/-- C7 counterexample: on `thought\nA\n# H\n## K` the earliest section-start
marker occurrence in the text is `\n# ` at index 9, but the code cuts at
`\n## ` (index 13) because the marker LIST order, not the text position,
decides: the result is `## K`, not the `# H\n## K` the claim requires. -/
theorem C7_cex_priority_not_earliest :
    _strip_thinking "thought\nA\n# H\n## K".data = "## K".data ∧
    pyFind "\n# ".data "thought\nA\n# H\n## K".data = some 9 ∧
    pyFind "\n## ".data "thought\nA\n# H\n## K".data = some 13 ∧
    stripChars ("thought\nA\n# H\n## K".data.drop 9) ≠ "## K".data :=
  ⟨by decide, by decide, by decide, by decide⟩

/-- C7 (amended): for a whitespace-trimmed input beginning with the token
`thought\n` and containing no other thinking markers, the branch tries the
fixed marker list in PRIORITY ORDER and discards everything before the
first occurrence of the first listed marker that occurs: for EVERY
decomposition of the marker list as `ms1 ++ m :: ms2` where no marker of
`ms1` occurs in the text and `m` occurs at position `p`, the result is the
text from `p` on, trimmed — the occurrence positions of later-listed
markers are irrelevant; if no listed marker occurs, the branch discards the
first blank-line-delimited paragraph when a blank line exists and otherwise
leaves the text unchanged. -/
theorem C7_amended_thought_branch (x : Str)
    (h1 : pyFind "<think>".data x = none)
    (h2 : pyFind "<unused".data x = none)
    (h3 : pyFind "model_output\n".data x = none)
    (hstrip : stripChars x = x)
    (hpre : "thought\n".data.isPrefixOf x = true) :
    (∀ (ms1 : List Str) (m : Str) (ms2 : List Str) (p : Nat),
      MARKERS = ms1 ++ m :: ms2 →
      (∀ m' ∈ ms1, pyFind m' x = none) →
      pyFind m x = some p →
      _strip_thinking x = stripChars (x.drop p)) ∧
    ((∀ m ∈ MARKERS, pyFind m x = none) →
      (∀ i, pyFind "\n\n".data x = some i →
        _strip_thinking x = stripChars (x.drop (i + 2))) ∧
      (pyFind "\n\n".data x = none → _strip_thinking x = x)) := by
  have hred : _strip_thinking x = stripChars (thoughtBranch x) := by
    unfold _strip_thinking
    rw [stepThink_no_op x h1, hstrip, stepUnused_no_op x h2, hstrip,
      stepModelOutput_no_op x h3]
    unfold stepThought
    rw [hpre]
    rfl
  have hxt : ∃ t, "thought\n".data ++ t = x :=
    (isPrefixOf_iff_exists _ _).mp hpre
  have hhead : ∀ m ∈ MARKERS, m.head? = some '\n' := by decide
  have hpos : ∀ (m : Str) (p : Nat), m ∈ MARKERS → pyFind m x = some p →
      0 < p := by
    intro m p hmem hfind
    cases hp : p with
    | zero =>
      exfalso
      rw [hp] at hfind
      have hmx := (isPrefixOf_iff_exists m x).mp (pyFind_eq_some_zero m x hfind)
      obtain ⟨t1, ht1⟩ := hmx
      obtain ⟨t2, ht2⟩ := hxt
      have hh := hhead m hmem
      cases m with
      | nil => simp at hh
      | cons c mt =>
        simp only [List.head?_cons, Option.some.injEq] at hh
        rw [← ht2] at ht1
        have hct : c = 't' := by
          have := ht1
          simpa using List.head_eq_of_cons_eq this
        rw [hh] at hct
        exact absurd hct (by decide)
    | succ n => omega
  refine ⟨?_, ?_⟩
  · intro ms1 m ms2 p hsplit hnone hp
    have hmem : m ∈ MARKERS := by
      rw [hsplit]
      exact List.mem_append.mpr (Or.inr (List.mem_cons_self m ms2))
    have hgt : 0 < p := hpos m p hmem hp
    have hloop : findMarkerLoop MARKERS x = some p := by
      rw [hsplit]
      exact findMarkerLoop_append_found ms1 ms2 m x p hnone hp hgt
    rw [hred]
    simp [thoughtBranch, hloop, stripChars_idem]
  · intro hall
    have hloop : findMarkerLoop MARKERS x = none := findMarkerLoop_none MARKERS x hall
    constructor
    · intro i hi
      rw [hred]
      simp [thoughtBranch, hloop, hi]
    · intro hnone
      rw [hred]
      simp [thoughtBranch, hloop, hnone, hstrip]

/-- C7 witness: the amended theorem applied at two concrete inputs — the
counterexample input, where the first listed marker `\n## ` wins and the
cut is at index 13, and an input whose first occurring listed marker is the
third one, `\n**`, where the cut is at its occurrence (index 9) even though
no earlier-listed marker occurs. -/
theorem C7_amended_witness :
    pyFind "\n## ".data "thought\nA\n# H\n## K".data = some 13 ∧
    _strip_thinking "thought\nA\n# H\n## K".data
      = stripChars ("thought\nA\n# H\n## K".data.drop 13) ∧
    pyFind "\n**".data "thought\nA\n**B**".data = some 9 ∧
    _strip_thinking "thought\nA\n**B**".data
      = stripChars ("thought\nA\n**B**".data.drop 9) :=
  ⟨by decide,
   (C7_amended_thought_branch "thought\nA\n# H\n## K".data
     (by decide) (by decide) (by decide) (by decide) (by decide)).1
     [] "\n## ".data
     ["\n# ".data, "\n**".data, "\nBased on".data, "\nThe patient".data,
      "\nHere is".data, "\nClinical".data, "\n---".data] 13 rfl
     (by intro m' hm'; simp at hm') (by decide),
   by decide,
   (C7_amended_thought_branch "thought\nA\n**B**".data
     (by decide) (by decide) (by decide) (by decide) (by decide)).1
     ["\n## ".data, "\n# ".data] "\n**".data
     ["\nBased on".data, "\nThe patient".data, "\nHere is".data,
      "\nClinical".data, "\n---".data] 9 rfl (by decide) (by decide)⟩

/-- An environment whose every external call fails and whose manifest scan
found nothing. -/
def envNoData : Env :=
  { manifest := []
    identifyResp := none
    jsonLoads := fun _ => none
    fetch := fun _ => none
    extractResp := fun _ => none
    synthResp := none }

/-- A state holding one extracted facts block. -/
def stOneFact : AgentState := { initialState "q" "p" with facts := ["f"] }

/-- C4 counterexample: with non-empty facts and a failing synthesis model
call, `synthesize_answer` returns `reasoning = ""`, not the verbatim joined
facts the claim requires for the model-failure path. -/
theorem C4_cex_reasoning_empty_on_failure :
    (synthesize_answer envNoData stOneFact).reasoning = some "" ∧
    some "" ≠ some (String.intercalate "\n\n" stOneFact.facts) :=
  ⟨rfl, by decide⟩

/-- C4 (amended): with empty facts, Synthesize outputs the terminal "no
relevant data" answer with empty reasoning.  With non-empty facts and a
successful model call, the answer is the sanitized model output and the
reasoning is the verbatim joined facts.  With non-empty facts and a failed
model call, the answer is the joined facts under the `**Extracted Facts:**`
heading and the reasoning is EMPTY (not the joined facts). -/
theorem C4_amended_synthesize (env : Env) (s : AgentState) :
    (s.facts = [] →
      (synthesize_answer env s).answer
          = some "No relevant clinical data found to answer this question." ∧
      (synthesize_answer env s).reasoning = some "") ∧
    (s.facts ≠ [] → ∀ r, env.synthResp = some r →
      (synthesize_answer env s).answer = some (stripThinkingS r) ∧
      (synthesize_answer env s).reasoning
          = some (String.intercalate "\n\n" s.facts)) ∧
    (s.facts ≠ [] → env.synthResp = none →
      (synthesize_answer env s).answer
          = some ("**Extracted Facts:**\n\n" ++ String.intercalate "\n\n" s.facts) ∧
      (synthesize_answer env s).reasoning = some "") := by
  refine ⟨?_, ?_, ?_⟩
  · intro h
    simp [synthesize_answer, h]
  · intro h r hr
    simp [synthesize_answer, h, hr]
  · intro h hr
    simp [synthesize_answer, h, hr]

/-- An environment where synthesis succeeds with a fixed answer. -/
def envSynthOk : Env := { envNoData with synthResp := some "Ans" }

/-- C4 witness: the amended theorem applied at a concrete non-empty-facts
state with a successful model call. -/
theorem C4_amended_witness :
    stOneFact.facts ≠ [] ∧
    (synthesize_answer envSynthOk stOneFact).answer = some (stripThinkingS "Ans") ∧
    (synthesize_answer envSynthOk stOneFact).reasoning
      = some (String.intercalate "\n\n" stOneFact.facts) :=
  ⟨by decide,
   ((C4_amended_synthesize envSynthOk stOneFact).2.1 (by decide) "Ans" rfl).1,
   ((C4_amended_synthesize envSynthOk stOneFact).2.1 (by decide) "Ans" rfl).2⟩

/-- C3: for a relevant type `T` whose fetch returns records but whose
extraction model call fails, the appended facts block is the label followed
by the raw concatenated detail text and is non-empty; the stage output is
the per-type blocks and labels of the whole selection in order (so the block
for `T` is among the facts whenever `T` is selected); and the block and
label of every other type depend only on that type's own fetch/extraction
results, so they are unaffected by `T`'s failure. -/
theorem C3_extract_model_failure_fallback (env : Env) (T : String)
    (rs : List String) (hf : env.fetch T = some rs) (hne : rs ≠ [])
    (hx : env.extractResp T = none) :
    (typeBlock env T
        = some ("--- " ++ T ++ " ---\n" ++ String.intercalate "\n" rs) ∧
      ("--- " ++ T ++ " ---\n" ++ String.intercalate "\n" rs) ≠ "") ∧
    (∀ s : AgentState, s.relevant_types ≠ [] →
      (execute_and_extract env s).facts
          = some (s.relevant_types.filterMap (typeBlock env)) ∧
      (execute_and_extract env s).resources_consulted
          = some (s.relevant_types.filterMap (typeConsulted env)) ∧
      (T ∈ s.relevant_types →
        ("--- " ++ T ++ " ---\n" ++ String.intercalate "\n" rs)
          ∈ s.relevant_types.filterMap (typeBlock env))) ∧
    (∀ env' : Env, env'.fetch = env.fetch →
      (∀ t, t ≠ T → env'.extractResp t = env.extractResp t) →
      ∀ t, t ≠ T → typeBlock env' t = typeBlock env t ∧
        typeConsulted env' t = typeConsulted env t) := by
  have hblock : typeBlock env T
      = some ("--- " ++ T ++ " ---\n" ++ String.intercalate "\n" rs) := by
    simp [typeBlock, hf, hx, hne]
  refine ⟨⟨hblock, ?_⟩, ?_, ?_⟩
  · intro habs
    have hlen := congrArg String.length habs
    rw [String.length_append, String.length_append, String.length_append] at hlen
    have h4 : ("--- " : String).length = 4 := rfl
    have h0 : ("" : String).length = 0 := rfl
    omega
  · intro s hs
    have hrun := foldl_typeStep env s.relevant_types [] []
    refine ⟨?_, ?_, ?_⟩
    · simp [execute_and_extract, hs, hrun]
    · simp [execute_and_extract, hs, hrun]
    · intro hT
      exact List.mem_filterMap.mpr ⟨T, hT, hblock⟩
  · intro env' hfetch hextract t ht
    constructor
    · unfold typeBlock
      rw [hfetch, hextract t ht]
    · unfold typeConsulted
      rw [hfetch]

/-- An environment with one fetchable resource type and a failing
extraction model. -/
def envFetchOk : Env :=
  { manifest := [("Observation", ["o"])]
    identifyResp := none
    jsonLoads := fun _ => none
    fetch := fun t => if t = "Observation" then some ["L1", "L2"] else none
    extractResp := fun _ => none
    synthResp := none }

/-- C3 witness: the theorem applied at the concrete environment, yielding
the raw-fallback block for `Observation`. -/
theorem C3_witness :
    envFetchOk.fetch "Observation" = some ["L1", "L2"] ∧
    typeBlock envFetchOk "Observation"
      = some ("--- " ++ "Observation" ++ " ---\n"
          ++ String.intercalate "\n" ["L1", "L2"]) :=
  ⟨by decide,
   (C3_extract_model_failure_fallback envFetchOk "Observation" ["L1", "L2"]
     (by decide) (by decide) rfl).1.1⟩

/-- A state as it reaches Identify with a one-type manifest. -/
def stObsManifest : AgentState :=
  { initialState "q" "p" with manifest := [("Observation", ["x"])] }

/-- An environment whose identify model call returns the JSON array `[[]]`
(one nested-array element). -/
def envNestedArray : Env :=
  { manifest := [("Observation", ["x"])]
    identifyResp := some "[[]]"
    jsonLoads := fun s =>
      if s = "[[]]" then some (PyJson.arr [PyJson.arr []]) else none
    fetch := fun _ => none
    extractResp := fun _ => none
    synthResp := none }

/-- C2 counterexample: the model returns the JSON array `[[]]`.  Filtering
that array to the types present in the manifest would give `[]`, but the
nested list element makes `t in manifest` raise `TypeError`, which escapes
the inner `except json.JSONDecodeError` to the outer handler, so the code
falls back to ALL manifest keys: `relevant_types = ["Observation"] ≠ []`. -/
theorem C2_cex_unhashable_element :
    (identify_relevant_types envNestedArray stObsManifest).relevant_types
      = some ["Observation"] ∧
    some ["Observation"] ≠ some ([] : List String) :=
  ⟨rfl, by decide⟩

/-- C2 (amended): for a non-empty manifest, when the Identify model call
raises, or its output does not parse as JSON, or parses to a non-array
value, or parses to an array containing an unhashable element (a nested
array or object, whose membership test raises `TypeError`), then
`relevant_types` is exactly the manifest's key list; when the model returns
a JSON array all of whose elements are hashable (strings, numbers,
booleans, null), `relevant_types` is that array's string elements filtered
to the types present in the manifest, in order (hallucinated and non-string
elements silently dropped). -/
theorem C2_amended_identify_fallback (env : Env) (s : AgentState)
    (hm : s.manifest ≠ []) :
    (env.identifyResp = none →
      (identify_relevant_types env s).relevant_types
        = some (s.manifest.map Prod.fst)) ∧
    (∀ r, env.identifyResp = some r →
      env.jsonLoads (cleanIdentify r) = none →
      (identify_relevant_types env s).relevant_types
        = some (s.manifest.map Prod.fst)) ∧
    (∀ r j, env.identifyResp = some r →
      env.jsonLoads (cleanIdentify r) = some j →
      (∀ es, j ≠ PyJson.arr es) →
      (identify_relevant_types env s).relevant_types
        = some (s.manifest.map Prod.fst)) ∧
    (∀ r es, env.identifyResp = some r →
      env.jsonLoads (cleanIdentify r) = some (PyJson.arr es) →
      (∀ e ∈ es, (∃ t, e = PyJson.str t) ∨ e = PyJson.prim) →
      (identify_relevant_types env s).relevant_types
        = some (es.filterMap (fun e =>
            match e with
            | PyJson.str t =>
              if (s.manifest.map Prod.fst).contains t then some t else none
            | _ => none))) ∧
    (∀ r es, env.identifyResp = some r →
      env.jsonLoads (cleanIdentify r) = some (PyJson.arr es) →
      (∃ e ∈ es, (∃ l, e = PyJson.arr l) ∨ e = PyJson.obj) →
      (identify_relevant_types env s).relevant_types
        = some (s.manifest.map Prod.fst)) := by
  refine ⟨?_, ?_, ?_, ?_, ?_⟩
  · intro h
    simp [identify_relevant_types, hm, h]
  · intro r hr hj
    simp [identify_relevant_types, hm, hr, hj]
  · intro r j hr hj hne
    cases j with
    | arr es => exact absurd rfl (hne es)
    | str t => simp [identify_relevant_types, hm, hr, hj]
    | obj => simp [identify_relevant_types, hm, hr, hj]
    | prim => simp [identify_relevant_types, hm, hr, hj]
  · intro r es hr hj hall
    have hok := pyFilterKeys_all_hashable (s.manifest.map Prod.fst) es hall
    simp [identify_relevant_types, hm, hr, hj, hok]
  · intro r es hr hj hex
    have herr := pyFilterKeys_error_of_unhashable (s.manifest.map Prod.fst) es hex
    simp [identify_relevant_types, hm, hr, hj, herr]

/-- C2 witness: the amended theorem's model-failure arm at a concrete
environment: `relevant_types` falls back to the full key list. -/
theorem C2_amended_witness :
    stObsManifest.manifest ≠ [] ∧
    (identify_relevant_types envNoData stObsManifest).relevant_types
      = some ["Observation"] :=
  ⟨by decide,
   (C2_amended_identify_fallback envNoData stObsManifest (by decide)).1 rfl⟩

/-- C1: for every patient whose Discover scan returns an empty manifest,
only the Discover node runs and the final state carries the literal
"no data found" terminal answer with empty facts and consulted lists; for
every non-empty manifest all four stages run — the empty manifest is the
only early-exit condition. -/
theorem C1_empty_manifest_early_exit (env : Env) (q pid : String) :
    (env.manifest = [] →
      (pipelineNodes env (initialState q pid)).map Prod.fst
        = ["discover_manifest"] ∧
      (finalState env q pid).answer
        = "No clinical data found for this patient in the EHR." ∧
      (finalState env q pid).facts = [] ∧
      (finalState env q pid).resources_consulted = []) ∧
    (env.manifest ≠ [] →
      (pipelineNodes env (initialState q pid)).map Prod.fst
        = ["discover_manifest", "identify_relevant_types",
           "execute_and_extract", "synthesize_answer"]) := by
  constructor
  · intro h
    refine ⟨?_, ?_, ?_, ?_⟩ <;>
      simp [pipelineNodes, finalState, initialState, discover_manifest,
        mergeUpdate, h]
  · intro h
    simp [pipelineNodes, initialState, discover_manifest, mergeUpdate, h]

/-- C1 witness: the theorem applied to the concrete all-failing environment
with an empty manifest. -/
theorem C1_witness :
    envNoData.manifest = [] ∧
    (finalState envNoData "q" "p").answer
      = "No clinical data found for this patient in the EHR." ∧
    (pipelineNodes envNoData (initialState "q" "p")).map Prod.fst
      = ["discover_manifest"] :=
  ⟨rfl,
   ((C1_empty_manifest_early_exit envNoData "q" "p").1 rfl).2.1,
   ((C1_empty_manifest_early_exit envNoData "q" "p").1 rfl).1⟩

/-- C9: `facts` is an append-only accumulator.  Every merge of a partial
update concatenates the update's facts onto the running list while every
other field is a plain overwrite (keeping the running value when the update
does not set it), and along every invocation's run the facts list of each
intermediate state is a prefix of the next one's, so its length never
decreases and no entry is removed or overwritten. -/
theorem C9_facts_append_only_accumulator :
    (∀ (s : AgentState) (u : Update),
      (mergeUpdate s u).facts = s.facts ++ u.facts.getD [] ∧
      (mergeUpdate s u).manifest = u.manifest.getD s.manifest ∧
      (mergeUpdate s u).relevant_types = u.relevant_types.getD s.relevant_types ∧
      (mergeUpdate s u).resources_consulted
          = u.resources_consulted.getD s.resources_consulted ∧
      (mergeUpdate s u).reasoning = u.reasoning.getD s.reasoning ∧
      (mergeUpdate s u).answer = u.answer.getD s.answer) ∧
    (∀ (env : Env) (q pid : String),
      List.Chain' (fun a b => a.facts <+: b.facts) (runStates env q pid)) ∧
    (∀ (env : Env) (q pid : String),
      List.Chain' (fun a b => a.facts.length ≤ b.facts.length)
        (runStates env q pid)) := by
  refine ⟨fun s u => ⟨rfl, rfl, rfl, rfl, rfl, rfl⟩, ?_, ?_⟩
  · intro env q pid
    exact chain'_mergeStates (fun s u => ⟨u.facts.getD [], rfl⟩) _ _
  · intro env q pid
    have hch : List.Chain' (fun a b => a.facts <+: b.facts) (runStates env q pid) :=
      chain'_mergeStates (fun s u => ⟨u.facts.getD [], rfl⟩) _ _
    refine List.Chain'.imp ?_ hch
    rintro a b ⟨t, ht⟩
    rw [← ht, List.length_append]
    omega

/-- C10 (amended): when Identify's model call returns a JSON array of
strings none of which is a manifest key (all hallucinated type names), the
all-manifest-types fallback is not applied: `relevant_types = []` and the
pipeline ends with the "No relevant clinical data found to answer this
question." terminal answer, empty facts and empty `resources_consulted`.
(An array whose elements are unhashable — nested arrays or objects — is
also "none of whose elements is a manifest key", but raises `TypeError` and
takes the all-types fallback instead: see the counterexample.) -/
theorem C10_amended_all_hallucinated (env : Env) (q pid r : String)
    (es : List PyJson)
    (hm : env.manifest ≠ [])
    (hr : env.identifyResp = some r)
    (hj : env.jsonLoads (cleanIdentify r) = some (PyJson.arr es))
    (hs : ∀ e ∈ es, ∃ t, e = PyJson.str t ∧
      (env.manifest.map Prod.fst).contains t = false) :
    (finalState env q pid).relevant_types = [] ∧
    (finalState env q pid).answer
      = "No relevant clinical data found to answer this question." ∧
    (finalState env q pid).facts = [] ∧
    (finalState env q pid).resources_consulted = [] := by
  have hok : pyFilterKeys (env.manifest.map Prod.fst) es = Except.ok [] := by
    have h1 := pyFilterKeys_all_hashable (env.manifest.map Prod.fst) es
      (fun e he => by
        obtain ⟨t, rfl, _⟩ := hs e he
        exact Or.inl ⟨t, rfl⟩)
    rw [h1]
    congr 1
    rw [List.filterMap_eq_nil_iff]
    intro e he
    obtain ⟨t, rfl, hc⟩ := hs e he
    show (if (env.manifest.map Prod.fst).contains t = true then some t else none)
      = none
    rw [hc]
    simp
  refine ⟨?_, ?_, ?_, ?_⟩ <;>
    simp [finalState, pipelineNodes, initialState, discover_manifest,
      identify_relevant_types, execute_and_extract, synthesize_answer,
      mergeUpdate, hm, hr, hj, hok]

/-- C10 counterexample: the model returns the JSON array `[[]]`, none of
whose elements is a manifest key, yet `relevant_types` is the full key list
(the `TypeError` fallback), not the empty list the claim requires. -/
theorem C10_cex_unhashable_not_empty :
    (finalState envNestedArray "q" "p").relevant_types = ["Observation"] ∧
    (["Observation"] : List String) ≠ [] :=
  ⟨rfl, by decide⟩

/-- An environment whose identify model call returns a JSON array holding
one hallucinated (non-manifest) type name. -/
def envHalluc : Env :=
  { manifest := [("Observation", ["x"])]
    identifyResp := some "[\"Medication\"]"
    jsonLoads := fun s =>
      if s = "[\"Medication\"]" then some (PyJson.arr [PyJson.str "Medication"])
      else none
    fetch := fun _ => none
    extractResp := fun _ => none
    synthResp := none }

/-- C10 witness: the amended theorem applied to the concrete
all-hallucinated environment. -/
theorem C10_amended_witness :
    envHalluc.manifest ≠ [] ∧
    (finalState envHalluc "q" "p").relevant_types = [] ∧
    (finalState envHalluc "q" "p").answer
      = "No relevant clinical data found to answer this question." :=
  ⟨by decide,
   (C10_amended_all_hallucinated envHalluc "q" "p" "[\"Medication\"]"
     [PyJson.str "Medication"] (by decide) rfl rfl
     (by
       intro e he
       simp only [List.mem_singleton] at he
       subst he
       exact ⟨"Medication", rfl, by decide⟩)).1,
   (C10_amended_all_hallucinated envHalluc "q" "p" "[\"Medication\"]"
     [PyJson.str "Medication"] (by decide) rfl rfl
     (by
       intro e he
       simp only [List.mem_singleton] at he
       subst he
       exact ⟨"Medication", rfl, by decide⟩)).2.1⟩

/-- C8 (amended): streaming emits exactly one progress event per executed
stage, in stage order, followed by exactly one distinct final `done` event
whose payload carries the final answer, reasoning, `resources_consulted`,
the fact count and the elapsed milliseconds — hence 2 events in total when
the pipeline early-terminates at Discover and 5 otherwise.  (Each emitted
line is `json.dumps` of such an object and therefore JSON-parseable.) -/
theorem C8_amended_stream_events (env : Env) (q pid : String) (elapsed : Nat) :
    (streamEvents env q pid elapsed).map Event.step
        = (pipelineNodes env (initialState q pid)).map Prod.fst ++ ["done"] ∧
    (env.manifest = [] → (streamEvents env q pid elapsed).length = 2) ∧
    (env.manifest ≠ [] → (streamEvents env q pid elapsed).length = 5) ∧
    (streamEvents env q pid elapsed).getLast? = some (Event.done
      { answer := (finalState env q pid).answer
        reasoning := (finalState env q pid).reasoning
        resources_consulted := (finalState env q pid).resources_consulted
        facts_extracted := (finalState env q pid).facts.length
        processing_time_ms := elapsed }) := by
  refine ⟨?_, ?_, ?_, ?_⟩
  · simp [streamEvents, progressEvents_steps, Event.step]
  · intro h
    simp [streamEvents, progressEvents_length, pipelineNodes, initialState,
      discover_manifest, mergeUpdate, h]
  · intro h
    simp [streamEvents, progressEvents_length, pipelineNodes, initialState,
      discover_manifest, mergeUpdate, h]
  · simp [streamEvents, List.getLast?_concat]

/-- C8 counterexample: on an empty-manifest run the stream emits 2 events
(one Discover progress event plus the `done` event), not the 3 events the
claim asserts for early termination. -/
theorem C8_cex_two_events_on_early_exit :
    (streamEvents envNoData "q" "p" 0).length = 2 ∧ (2 : Nat) ≠ 3 :=
  ⟨rfl, by decide⟩

/-- C8 witness: the amended theorem's early-exit arm at the concrete
empty-manifest environment. -/
theorem C8_amended_witness :
    (streamEvents envNoData "q" "p" 5).length = 2 :=
  (C8_amended_stream_events envNoData "q" "p" 5).2.1 rfl

end EhrNav
